import Mathlib

/-!
# Verification of the JobAI python-service pipeline

Shallow embedding of the two pipeline coordinators of the repository:

* `services/job_scraper.py` — `JobScraper.scrape_jobs` and its helpers
  (`_scrape_jsearch_jobs`, `_scrape_indeed_jobs`, `_remove_duplicates`,
  `_get_mock_jobs`);
* `services/ai_matcher.py` — `AIMatcher.score_jobs` and its helpers
  (`_score_job_batch`, `_parse_ai_scores`, `_generate_mock_scores`);
* `models/job.py` — the `Job` / `ScoredJob` record shapes;
* `main.py` — the `scrape_jobs` / `score_jobs` endpoint wrappers.

Embedding conventions:

* Python strings are Lean `String`s; the Python string operations used by the
  source (`strip`, `lower`, `title`, `split`, substring test, `int(...)`,
  slicing `l[:n]`) are re-implemented structurally on `List Char` so that all
  model functions are executable and kernel-reducible.  `Char.toLower` /
  `Char.toUpper` handle ASCII, which covers every string the source builds;
  Python's extra acceptance of underscores inside `int(...)` literals is not
  modelled (no claim depends on it).
* The two network sub-scrapers catch every exception internally and return a
  plain list (`[]` on failure), so their outcome is passed to the model of
  `scrape_jobs` as a parameter (`jsearchJobs` / `indeedJobs`).  The `raised`
  parameter models whether an exception reached `scrape_jobs`'s own
  `try/except` (its `except` branch exists in the source even though the
  helpers it calls never raise).
* `random.choice` draws in `_get_mock_jobs` are modelled by arbitrary choice
  functions `Nat → Nat` reduced modulo the roster length; any concrete run of
  the Python code corresponds to some choice functions.
* Fallible dictionary access `job['title']` is modelled by `Except String`,
  with `KeyError: <key>` as the error value; pydantic model construction
  itself cannot fail on these fields once the values exist.
* `AIMatcher.score_jobs` consults at most one provider; whether a provider is
  configured is the `pc : Bool` parameter and the (external, nondeterministic)
  provider completion text for batch `b` is `r b`.  `asyncio.sleep` and the
  stubbed resume download have no effect on the returned value and are
  omitted.
* Python's `list.sort(key=..., reverse=True)` is a stable descending sort; a
  stable sort by a total key is extensionally unique, so it is modelled by a
  stable insertion sort on the key `fit_score`.
-/

namespace JobAI

/-! ## Python string primitives (structural, kernel-reducible) -/

/-- Python `str.strip` whitespace class (ASCII part). -/
def isPySpace (c : Char) : Bool :=
  c = ' ' || c = '\t' || c = '\n' || c = '\r' || c = '\x0b' || c = '\x0c'

def stripChars (l : List Char) : List Char :=
  ((l.dropWhile isPySpace).reverse.dropWhile isPySpace).reverse

/-- Python `s.strip()`. -/
def pyStrip (s : String) : String := ⟨stripChars s.data⟩

/-- Python `s.lower()` (ASCII). -/
def pyLower (s : String) : String := ⟨s.data.map Char.toLower⟩

/-- First occurrence of `pat` in `l`: `some (before, after)` split around it. -/
def splitFirstAux (pat : List Char) : List Char → Option (List Char × List Char)
  | [] => none
  | c :: rest =>
    if pat.isPrefixOf (c :: rest) then some ([], (c :: rest).drop pat.length)
    else
      match splitFirstAux pat rest with
      | some (pre, post) => some (c :: pre, post)
      | none => none

def splitAllAux (pat : List Char) : Nat → List Char → List (List Char)
  | 0, l => [l]
  | fuel + 1, l =>
    match splitFirstAux pat l with
    | none => [l]
    | some (pre, post) => pre :: splitAllAux pat fuel post

/-- Python `s.split(sep)` for a non-empty separator. -/
def pySplit (s sep : String) : List String :=
  (splitAllAux sep.data (s.data.length + 1) s.data).map (fun l => ⟨l⟩)

def containsSubAux (pat : List Char) : List Char → Bool
  | [] => pat.isEmpty
  | c :: rest => pat.isPrefixOf (c :: rest) || containsSubAux pat rest

/-- Python `pat in s` substring test. -/
def strContains (s pat : String) : Bool := containsSubAux pat.data s.data

def digitsVal (l : List Char) : Nat :=
  l.foldl (fun acc c => acc * 10 + (c.toNat - 48)) 0

/-- Python `int(s)`: strip, optional sign, decimal digits; failure is `none`. -/
def pyInt? (s : String) : Option Int :=
  match stripChars s.data with
  | [] => none
  | '-' :: rest =>
    if !rest.isEmpty && rest.all Char.isDigit then some (-(digitsVal rest : Int)) else none
  | '+' :: rest =>
    if !rest.isEmpty && rest.all Char.isDigit then some ((digitsVal rest : Int)) else none
  | l => if l.all Char.isDigit then some ((digitsVal l : Int)) else none

def pyTitleAux : Bool → List Char → List Char
  | _, [] => []
  | prev, c :: rest =>
    (if c.isAlpha then (if prev then c.toLower else c.toUpper) else c)
      :: pyTitleAux c.isAlpha rest

/-- Python `s.title()` (ASCII). -/
def pyTitle (s : String) : String := ⟨pyTitleAux false s.data⟩

/-- Python slice `l[:n]`, including the negative-index semantics. -/
def pySlice (n : Int) (l : List α) : List α :=
  if 0 ≤ n then l.take n.toNat else l.take (l.length - (-n).toNat)

/-! ## Data model (`models/job.py`)

A scraped job dictionary, as built by `_parse_jsearch_job`,
`_extract_indeed_job_from_card` and `_get_mock_jobs`: all six keys present. -/

structure Job where
  title : String
  company : String
  description : String
  location : String
  source_url : String
  source : String
deriving Repr, DecidableEq

/-- A caller-supplied job dictionary for `AIMatcher.score_jobs`
(`jobs: List[Dict[str, Any]]` in `ScoreJobsRequest`): any key may be absent. -/
structure JobDict where
  title : Option String
  company : Option String
  description : Option String
  location : Option String
  source_url : Option String
deriving Repr, DecidableEq

/-- `models/job.py: ScoredJob` (pydantic): required `title`, `company`,
`description`, `fit_score`; optional `location`, `source_url`,
`score_explanation`. -/
structure ScoredJob where
  title : String
  company : String
  description : String
  location : Option String
  source_url : Option String
  fit_score : Int
  score_explanation : String
deriving Repr, DecidableEq

/-! ## Job scraper (`services/job_scraper.py`) -/

/-- `_remove_duplicates`: key `f"{job['title'].lower().strip()}|{job['company'].lower().strip()}"`. -/
def dedupKey (j : Job) : String :=
  pyStrip (pyLower j.title) ++ "|" ++ pyStrip (pyLower j.company)

def remove_duplicates_aux (seen : List String) : List Job → List Job
  | [] => []
  | j :: rest =>
    if dedupKey j ∈ seen then remove_duplicates_aux seen rest
    else j :: remove_duplicates_aux (dedupKey j :: seen) rest

/-- `JobScraper._remove_duplicates` (the Python `seen` set is a list used only
through membership). -/
def remove_duplicates (jobs : List Job) : List Job := remove_duplicates_aux [] jobs

/-- The `all_jobs` accumulator of `JobScraper.scrape_jobs`: jsearch results only
when an API key is configured, then Indeed results only when still short of
`limit`. -/
def all_jobs (hasKey : Bool) (jsearchJobs indeedJobs : List Job) (lim : Int) : List Job :=
  let fromApi := if hasKey then jsearchJobs else []
  if (fromApi.length : Int) < lim then fromApi ++ indeedJobs else fromApi

def companies : List String :=
  ["TechCorp", "InnovateLab", "DataSoft", "CloudSystems", "AIStartup",
   "DevStudio", "CodeCraft", "ByteDance", "TechFlow", "DigitalHub",
   "Microsoft", "Google", "Amazon", "Meta", "Apple"]

def job_types : List String := ["Senior", "Junior", "Lead", "Principal", "Staff"]

def mock_cities : List String :=
  ["San Francisco, CA", "New York, NY", "Seattle, WA", "Austin, TX", "Remote"]

/-- A `random.choice(l)` draw, modelled by an arbitrary choice function. -/
def pickFrom (l : List String) (f : Nat → Nat) (i : Nat) : String :=
  l.getD (f i % l.length) ""

def mock_description (keyword company : String) : String :=
  "We are looking for a skilled " ++ keyword ++ " to join our team at " ++ company ++ ". " ++
  "The ideal candidate will have experience in " ++ pyLower keyword ++ " and related technologies. " ++
  "This is a great opportunity to work with cutting-edge technology and grow your career. " ++
  "Responsibilities include developing software solutions, collaborating with cross-functional teams, " ++
  "and contributing to our innovative products."

/-- `JobScraper._get_mock_jobs`. -/
def get_mock_jobs (keyword loc : String) (lim : Int)
    (companyPick typePick cityPick : Nat → Nat) : List Job :=
  (List.range (min lim 15).toNat).map fun i =>
    { title := pickFrom job_types typePick i ++ " " ++ pyTitle keyword
      company := pickFrom companies companyPick i
      description := mock_description keyword (pickFrom companies companyPick i)
      location := if loc = "" then pickFrom mock_cities cityPick i else loc
      source_url := "https://example.com/job/" ++ toString (i + 1)
      source := "mock" }

/-- The non-exception body of `JobScraper.scrape_jobs` (steps: accumulate,
deduplicate, truncate). -/
def scrape_jobsCore (hasKey : Bool) (jsearchJobs indeedJobs : List Job) (lim : Int) : List Job :=
  pySlice lim (remove_duplicates (all_jobs hasKey jsearchJobs indeedJobs lim))

/-- `JobScraper.scrape_jobs`.  `raised` models whether an exception escaped the
body into the method's own `except` handler (the sub-scrapers themselves catch
all their exceptions and return `[]`). -/
def scrape_jobs (raised hasKey : Bool) (jsearchJobs indeedJobs : List Job)
    (keyword loc : String) (lim : Int) (companyPick typePick cityPick : Nat → Nat) : List Job :=
  if raised then get_mock_jobs keyword loc lim companyPick typePick cityPick
  else scrape_jobsCore hasKey jsearchJobs indeedJobs lim

/-- `main.py: scrape_jobs` endpoint: reject blank keyword, strip arguments,
cap the limit at 50. -/
def scrape_jobs_endpoint (raised hasKey : Bool) (jsearchJobs indeedJobs : List Job)
    (keyword loc : String) (lim : Int)
    (companyPick typePick cityPick : Nat → Nat) : Except String (List Job) :=
  if pyStrip keyword = "" then Except.error "Keyword is required"
  else Except.ok (scrape_jobs raised hasKey jsearchJobs indeedJobs
    (pyStrip keyword) (pyStrip loc) (min lim 50) companyPick typePick cityPick)

/-! ## AI matcher (`services/ai_matcher.py`) -/

/-- Python `job['key']`: the value when present, `KeyError` otherwise. -/
def pyGet (v : Option String) (key : String) : Except String String :=
  match v with
  | some s => Except.ok s
  | none => Except.error ("KeyError: " ++ key)

/-- `_generate_mock_scores` line 337-338:
`base_score = 85 - (i * 3); mock_score = max(40, min(95, base_score + (i % 3) * 5))`. -/
def mockScoreAt (i : Nat) : Int :=
  max 40 (min 95 ((85 - 3 * (i : Int)) + ((i : Int) % 3) * 5))

def mock_explanation : String :=
  "Mock AI analysis: Good match based on job requirements and candidate profile."

/-- Loop body of `AIMatcher._generate_mock_scores`, from enumeration index `i`;
`job['title']` / `job['company']` / `job['description']` raise `KeyError` when
the corresponding key is absent. -/
def generate_mock_scores_aux : Nat → List JobDict → Except String (List ScoredJob)
  | _, [] => Except.ok []
  | i, j :: rest =>
    match pyGet j.title "title" with
    | Except.error e => Except.error e
    | Except.ok t =>
      match pyGet j.company "company" with
      | Except.error e => Except.error e
      | Except.ok c =>
        match pyGet j.description "description" with
        | Except.error e => Except.error e
        | Except.ok d =>
          match generate_mock_scores_aux (i + 1) rest with
          | Except.error e => Except.error e
          | Except.ok tail =>
            Except.ok ({ title := t, company := c, description := d,
                         location := j.location, source_url := j.source_url,
                         fit_score := mockScoreAt i,
                         score_explanation := mock_explanation } :: tail)

/-- `AIMatcher._generate_mock_scores`. -/
def generate_mock_scores (jobs : List JobDict) : Except String (List ScoredJob) :=
  generate_mock_scores_aux 0 jobs

def default_explanation : String := "AI analysis completed"

/-- One iteration of the line-scanning loop of `_parse_ai_scores` for 1-based
job index `n`, before clamping: find the first line containing `"Job {n}:"`,
split it on every `" - "`, take the integer between the first and second `":"`
of the first segment as the score and the second segment as the explanation;
any failure leaves the defaults `(50, "AI analysis completed")`. -/
def parse_entry_raw (lines : List String) (n : Nat) : Int × String :=
  match lines.find? (fun line => strContains line ("Job " ++ toString n ++ ":")) with
  | none => (50, default_explanation)
  | some line =>
    let parts := pySplit line " - "
    if 2 ≤ parts.length then
      let colonParts := pySplit (parts.getD 0 "") ":"
      if 2 ≤ colonParts.length then
        match pyInt? (pyStrip (colonParts.getD 1 "")) with
        | some v => (v, pyStrip (parts.getD 1 ""))
        | none => (50, default_explanation)
      else (50, default_explanation)
    else (50, default_explanation)

/-- The parsed entry after the unconditional clamp
`score = max(0, min(100, score))`. -/
def parse_entry (lines : List String) (n : Nat) : Int × String :=
  (max 0 (min 100 (parse_entry_raw lines n).1), (parse_entry_raw lines n).2)

/-- Per-job loop of `_parse_ai_scores` over enumeration index `i`
(`ScoredJob(title=job['title'], ...)` raises `KeyError` on a missing key). -/
def parse_rows (lines : List String) : Nat → List JobDict → Except String (List ScoredJob)
  | _, [] => Except.ok []
  | i, j :: rest =>
    match pyGet j.title "title" with
    | Except.error e => Except.error e
    | Except.ok t =>
      match pyGet j.company "company" with
      | Except.error e => Except.error e
      | Except.ok c =>
        match pyGet j.description "description" with
        | Except.error e => Except.error e
        | Except.ok d =>
          match parse_rows lines (i + 1) rest with
          | Except.error e => Except.error e
          | Except.ok tail =>
            Except.ok ({ title := t, company := c, description := d,
                         location := j.location, source_url := j.source_url,
                         fit_score := (parse_entry lines (i + 1)).1,
                         score_explanation := (parse_entry lines (i + 1)).2 } :: tail)

/-- Body of `AIMatcher._parse_ai_scores`:
`lines = ai_response.strip().split('\n')`, then one `ScoredJob` per job. -/
def parse_ai_scores_core (jobs : List JobDict) (resp : String) : Except String (List ScoredJob) :=
  parse_rows (pySplit (pyStrip resp) "\n") 0 jobs

/-- `AIMatcher._parse_ai_scores` with its own `except` handler, which falls
back to `_generate_mock_scores(jobs)`. -/
def parse_ai_scores (jobs : List JobDict) (resp : String) : Except String (List ScoredJob) :=
  match parse_ai_scores_core jobs resp with
  | Except.ok l => Except.ok l
  | Except.error _ => generate_mock_scores jobs

/-- Outcome of one provider call (OpenAI or Claude): a completion text, or an
exception inside the provider call (network error etc.). -/
inductive BatchOutcome where
  | response (text : String)
  | failure
deriving Repr, DecidableEq

/-- Body of `AIMatcher._score_job_batch` (with `_score_with_openai` /
`_score_with_claude` inlined: both parse the completion on success and fall
back to `_generate_mock_scores` on an exception inside the provider call).
`outcome = none` means no provider is configured. -/
def score_job_batch_inner (outcome : Option BatchOutcome) (batch : List JobDict) :
    Except String (List ScoredJob) :=
  match outcome with
  | none => generate_mock_scores batch
  | some (BatchOutcome.response t) => parse_ai_scores batch t
  | some BatchOutcome.failure => generate_mock_scores batch

/-- `AIMatcher._score_job_batch`: its body plus the method's own `except`
handler, which retries `_generate_mock_scores(jobs)`. -/
def score_job_batch (outcome : Option BatchOutcome) (batch : List JobDict) :
    Except String (List ScoredJob) :=
  match score_job_batch_inner outcome batch with
  | Except.ok l => Except.ok l
  | Except.error _ => generate_mock_scores batch

/-- Batch loop of `AIMatcher.score_jobs`: slices of 5 jobs, batch counter `b`.
The `fuel` argument only drives the recursion; `score_jobs` passes
`jobs.length`, which always suffices since each step consumes at least one
job. -/
def score_batches (pc : Bool) (r : Nat → BatchOutcome) :
    Nat → Nat → List JobDict → Except String (List ScoredJob)
  | _, _, [] => Except.ok []
  | 0, _, _ :: _ => Except.ok []
  | fuel + 1, b, j :: rest =>
    match score_job_batch (if pc then some (r b) else none) ((j :: rest).take 5) with
    | Except.error e => Except.error e
    | Except.ok head =>
      match score_batches pc r fuel (b + 1) ((j :: rest).drop 5) with
      | Except.error e => Except.error e
      | Except.ok tail => Except.ok (head ++ tail)

/-- `AIMatcher.score_jobs`: batch loop plus the method's top-level `except`
handler, which falls back to `_generate_mock_scores(jobs)` on the whole list
(and therefore re-raises if that fallback itself raises). -/
def score_jobs (pc : Bool) (r : Nat → BatchOutcome) (jobs : List JobDict) :
    Except String (List ScoredJob) :=
  match score_batches pc r jobs.length 0 jobs with
  | Except.ok l => Except.ok l
  | Except.error _ => generate_mock_scores jobs

/-- Stable descending insertion step on `fit_score`: the new element `x` goes
before the first element that does not strictly beat it, so earlier elements
win ties. -/
def orderedInsertDesc (x : ScoredJob) : List ScoredJob → List ScoredJob
  | [] => [x]
  | y :: ys =>
    if y.fit_score ≤ x.fit_score then x :: y :: ys else y :: orderedInsertDesc x ys

/-- Model of `scored_jobs.sort(key=lambda job: job.fit_score, reverse=True)`
in `main.py` (Python's sort is stable; a stable descending sort by a total key
is extensionally unique, and this insertion sort is one). -/
def sortByFitDesc : List ScoredJob → List ScoredJob
  | [] => []
  | x :: xs => orderedInsertDesc x (sortByFitDesc xs)

/-- `main.py: score_jobs` endpoint: reject an empty jobs list and an empty
resume URL, score, then sort descending by `fit_score`. -/
def score_jobs_endpoint (pc : Bool) (r : Nat → BatchOutcome) (resume_url : String)
    (jobs : List JobDict) : Except String (List ScoredJob) :=
  if jobs.isEmpty then Except.error "Jobs list is required"
  else if resume_url = "" then Except.error "Resume URL is required"
  else
    match score_jobs pc r jobs with
    | Except.ok l => Except.ok (sortByFitDesc l)
    | Except.error e => Except.error e

/-- Fit scores of a scoring result (empty on error), for stating concrete
evaluations without binders. -/
def scoresOfResult (e : Except String (List ScoredJob)) : List Int :=
  match e with
  | Except.ok l => l.map (fun s => s.fit_score)
  | Except.error _ => []

/-! ## Frame of a job record: the fields that scoring must not change -/

structure JobFields where
  title : String
  company : String
  description : String
  location : Option String
  source_url : Option String
deriving Repr, DecidableEq

def frameOfD (j : JobDict) : Option JobFields :=
  match j.title, j.company, j.description with
  | some t, some c, some d => some ⟨t, c, d, j.location, j.source_url⟩
  | _, _, _ => none

def frameOfS (s : ScoredJob) : JobFields :=
  ⟨s.title, s.company, s.description, s.location, s.source_url⟩

/-- The keys a job dictionary must carry for scoring not to raise `KeyError`. -/
def hasRequiredKeys (j : JobDict) : Bool :=
  j.title.isSome && j.company.isSome && j.description.isSome

/-! ## Concrete fixtures -/

def noResponses : Nat → BatchOutcome := fun _ => BatchOutcome.failure

def zeroPick : Nat → Nat := fun _ => 0

def emptyJD : JobDict := { title := none, company := none, description := none,
                           location := none, source_url := none }

def jdA : JobDict := { title := some "Backend Engineer", company := some "Acme",
                       description := some "Build APIs", location := some "Remote",
                       source_url := some "https://a" }

def jdB : JobDict := { title := some "Data Engineer", company := some "Globex",
                       description := some "Build pipelines", location := some "NYC",
                       source_url := some "https://b" }

def mkJD (t : String) : JobDict := { title := some t, company := some "Acme",
                                     description := some "Work", location := none,
                                     source_url := none }

def jobs6 : List JobDict :=
  [mkJD "J0", mkJD "J1", mkJD "J2", mkJD "J3", mkJD "J4", mkJD "J5"]

def defaultScored : ScoredJob :=
  { title := "", company := "", description := "", location := none,
    source_url := none, fit_score := 0, score_explanation := "" }

def defaultJob : Job :=
  { title := "", company := "", description := "", location := "",
    source_url := "", source := "" }

/-- The record `score_jobs` produces for `jdA` at position 0 on the mock path. -/
def sjA85 : ScoredJob :=
  { title := "Backend Engineer", company := "Acme", description := "Build APIs",
    location := some "Remote", source_url := some "https://a",
    fit_score := 85, score_explanation := mock_explanation }

/-! ## Helper lemmas: slicing -/

theorem pySlice_nil (n : Int) : pySlice n ([] : List α) = [] := by
  unfold pySlice; split <;> simp

theorem pySlice_sublist (n : Int) (l : List α) : List.Sublist (pySlice n l) l := by
  unfold pySlice; split <;> exact List.take_sublist _ _

theorem pySlice_length_le {n : Int} (hn : 0 ≤ n) (l : List α) :
    ((pySlice n l).length : Int) ≤ n := by
  unfold pySlice
  rw [if_pos hn, List.length_take]
  omega

/-! ## Helper lemmas: deduplication -/

theorem remove_duplicates_aux_sublist (l : List Job) :
    ∀ seen, List.Sublist (remove_duplicates_aux seen l) l := by
  induction l with
  | nil => intro seen; exact List.Sublist.refl _
  | cons j rest ih =>
    intro seen
    by_cases h : dedupKey j ∈ seen
    · rw [remove_duplicates_aux, if_pos h]
      exact (ih seen).trans (List.sublist_cons_self j rest)
    · rw [remove_duplicates_aux, if_neg h]
      exact (ih _).cons₂ j

theorem remove_duplicates_aux_keys (l : List Job) :
    ∀ seen, (∀ j ∈ remove_duplicates_aux seen l, dedupKey j ∉ seen) ∧
      List.Pairwise (fun a b => dedupKey a ≠ dedupKey b) (remove_duplicates_aux seen l) := by
  induction l with
  | nil =>
    intro seen
    refine ⟨?_, ?_⟩
    · intro j hj; rw [remove_duplicates_aux] at hj; cases hj
    · rw [remove_duplicates_aux]; exact List.Pairwise.nil
  | cons j rest ih =>
    intro seen
    by_cases h : dedupKey j ∈ seen
    · rw [remove_duplicates_aux, if_pos h]; exact ih seen
    · rw [remove_duplicates_aux, if_neg h]
      obtain ⟨ihMem, ihPw⟩ := ih (dedupKey j :: seen)
      refine ⟨?_, ?_⟩
      · intro x hx
        rcases List.mem_cons.mp hx with rfl | hx
        · exact h
        · intro hxs; exact ihMem x hx (List.mem_cons_of_mem _ hxs)
      · refine List.Pairwise.cons ?_ ihPw
        intro y hy hEq
        exact ihMem y hy (hEq ▸ List.mem_cons_self _ _)

theorem remove_duplicates_aux_congr (l : List Job) :
    ∀ s₁ s₂, (∀ a, a ∈ s₁ ↔ a ∈ s₂) →
      remove_duplicates_aux s₁ l = remove_duplicates_aux s₂ l := by
  induction l with
  | nil => intro _ _ _; rfl
  | cons j rest ih =>
    intro s₁ s₂ hs
    by_cases h : dedupKey j ∈ s₁
    · rw [remove_duplicates_aux, if_pos h, remove_duplicates_aux,
        if_pos ((hs _).mp h)]
      exact ih _ _ hs
    · rw [remove_duplicates_aux, if_neg h, remove_duplicates_aux,
        if_neg (fun hh => h ((hs _).mpr hh))]
      refine congrArg (j :: ·) (ih _ _ ?_)
      intro a
      simp only [List.mem_cons]
      exact or_congr Iff.rfl (hs a)

theorem remove_duplicates_aux_cons_seen (l : List Job) :
    ∀ (seen : List String) (k : String),
      remove_duplicates_aux (k :: seen) l
        = remove_duplicates_aux seen (l.filter (fun x => dedupKey x != k)) := by
  induction l with
  | nil => intro _ _; rfl
  | cons j rest ih =>
    intro seen k
    by_cases hjk : dedupKey j = k
    · rw [remove_duplicates_aux, if_pos (by rw [hjk]; exact List.mem_cons_self _ _)]
      rw [List.filter_cons, if_neg (by simp [hjk])]
      exact ih seen k
    · rw [List.filter_cons, if_pos (by simp [hjk])]
      by_cases hjs : dedupKey j ∈ seen
      · rw [remove_duplicates_aux, if_pos (List.mem_cons_of_mem _ hjs),
          remove_duplicates_aux, if_pos hjs]
        exact ih seen k
      · rw [remove_duplicates_aux,
          if_neg (by simp only [List.mem_cons]; push_neg; exact ⟨hjk, hjs⟩),
          remove_duplicates_aux, if_neg hjs]
        refine congrArg (j :: ·) ?_
        calc remove_duplicates_aux (dedupKey j :: k :: seen) rest
            = remove_duplicates_aux (k :: dedupKey j :: seen) rest := by
              refine remove_duplicates_aux_congr rest _ _ ?_
              intro a; simp only [List.mem_cons]; tauto
          _ = remove_duplicates_aux (dedupKey j :: seen)
                (rest.filter (fun x => dedupKey x != k)) := ih _ k

theorem remove_duplicates_cons_eq (j : Job) (rest : List Job) :
    remove_duplicates (j :: rest)
      = j :: remove_duplicates (rest.filter (fun x => dedupKey x != dedupKey j)) := by
  rw [remove_duplicates, remove_duplicates_aux, if_neg (List.not_mem_nil _)]
  exact congrArg (j :: ·) (remove_duplicates_aux_cons_seen rest [] (dedupKey j))

/-! ## Helper lemmas: mock scores -/

theorem mockScoreAt_bounds (i : Nat) : 40 ≤ mockScoreAt i ∧ mockScoreAt i ≤ 95 := by
  unfold mockScoreAt; omega

theorem pyGet_ok {v : Option String} {k s : String} (h : pyGet v k = Except.ok s) :
    v = some s := by
  cases v with
  | none => simp [pyGet] at h
  | some t => simp [pyGet] at h; rw [h]

theorem gma_sound :
    ∀ (jobs : List JobDict) (i : Nat) (l : List ScoredJob),
      generate_mock_scores_aux i jobs = Except.ok l →
      l.length = jobs.length ∧
      jobs.map frameOfD = l.map (fun s => some (frameOfS s)) ∧
      (∀ k, k < jobs.length → (l.getD k defaultScored).fit_score = mockScoreAt (i + k)) ∧
      (∀ sj ∈ l, 40 ≤ sj.fit_score ∧ sj.fit_score ≤ 95) := by
  intro jobs
  induction jobs with
  | nil =>
    intro i l h
    rw [generate_mock_scores_aux] at h
    cases h
    refine ⟨rfl, rfl, ?_, ?_⟩
    · intro k hk; simp at hk
    · intro sj hsj; cases hsj
  | cons j rest ih =>
    intro i l h
    rw [generate_mock_scores_aux] at h
    cases ht : pyGet j.title "title" with
    | error e => simp only [ht] at h; exact Except.noConfusion h
    | ok t =>
    simp only [ht] at h
    cases hc : pyGet j.company "company" with
    | error e => simp only [hc] at h; exact Except.noConfusion h
    | ok c =>
    simp only [hc] at h
    cases hd : pyGet j.description "description" with
    | error e => simp only [hd] at h; exact Except.noConfusion h
    | ok d =>
    simp only [hd] at h
    cases htail : generate_mock_scores_aux (i + 1) rest with
    | error e => simp only [htail] at h; exact Except.noConfusion h
    | ok tail =>
    simp only [htail] at h
    injection h with h
    subst h
    obtain ⟨ihLen, ihFrame, ihIdx, ihBnd⟩ := ih (i + 1) tail htail
    refine ⟨by simp [ihLen], ?_, ?_, ?_⟩
    · simp only [List.map_cons]
      refine congrArg₂ (· :: ·) ?_ ihFrame
      rw [frameOfD, pyGet_ok ht, pyGet_ok hc, pyGet_ok hd]
      rfl
    · intro k hk
      cases k with
      | zero => simp [List.getD]
      | succ k =>
        have := ihIdx k (by simpa using Nat.lt_of_succ_lt_succ hk)
        simpa [List.getD, Nat.add_assoc, Nat.add_comm 1 k] using this
    · intro sj hsj
      rcases List.mem_cons.mp hsj with rfl | hsj
      · exact mockScoreAt_bounds i
      · exact ihBnd sj hsj

theorem gma_complete :
    ∀ (jobs : List JobDict), (∀ j ∈ jobs, hasRequiredKeys j = true) →
      ∀ i, ∃ l, generate_mock_scores_aux i jobs = Except.ok l := by
  intro jobs
  induction jobs with
  | nil => intro _ i; exact ⟨[], rfl⟩
  | cons j rest ih =>
    intro hv i
    have hj : hasRequiredKeys j = true := hv j (List.mem_cons_self _ _)
    rw [hasRequiredKeys, Bool.and_eq_true, Bool.and_eq_true] at hj
    obtain ⟨⟨ht, hc⟩, hd⟩ := hj
    obtain ⟨t, ht⟩ := Option.isSome_iff_exists.mp ht
    obtain ⟨c, hc⟩ := Option.isSome_iff_exists.mp hc
    obtain ⟨d, hd⟩ := Option.isSome_iff_exists.mp hd
    obtain ⟨tail, htail⟩ := ih (fun x hx => hv x (List.mem_cons_of_mem _ hx)) (i + 1)
    refine ⟨{ title := t, company := c, description := d, location := j.location,
              source_url := j.source_url, fit_score := mockScoreAt i,
              score_explanation := mock_explanation } :: tail, ?_⟩
    rw [generate_mock_scores_aux, ht, hc, hd]
    simp only [pyGet, htail]

/-! ## Helper lemmas: AI-response parsing -/

theorem parse_entry_bounds (lines : List String) (n : Nat) :
    0 ≤ (parse_entry lines n).1 ∧ (parse_entry lines n).1 ≤ 100 := by
  unfold parse_entry
  refine ⟨le_max_left _ _, max_le (by norm_num) (min_le_left _ _)⟩

theorem parse_rows_sound :
    ∀ (jobs : List JobDict) (lines : List String) (i : Nat) (l : List ScoredJob),
      parse_rows lines i jobs = Except.ok l →
      l.length = jobs.length ∧
      jobs.map frameOfD = l.map (fun s => some (frameOfS s)) ∧
      (∀ sj ∈ l, 0 ≤ sj.fit_score ∧ sj.fit_score ≤ 100) := by
  intro jobs
  induction jobs with
  | nil =>
    intro lines i l h
    rw [parse_rows] at h
    cases h
    exact ⟨rfl, rfl, fun sj hsj => absurd hsj (List.not_mem_nil _)⟩
  | cons j rest ih =>
    intro lines i l h
    rw [parse_rows] at h
    cases ht : pyGet j.title "title" with
    | error e => simp only [ht] at h; exact Except.noConfusion h
    | ok t =>
    simp only [ht] at h
    cases hc : pyGet j.company "company" with
    | error e => simp only [hc] at h; exact Except.noConfusion h
    | ok c =>
    simp only [hc] at h
    cases hd : pyGet j.description "description" with
    | error e => simp only [hd] at h; exact Except.noConfusion h
    | ok d =>
    simp only [hd] at h
    cases htail : parse_rows lines (i + 1) rest with
    | error e => simp only [htail] at h; exact Except.noConfusion h
    | ok tail =>
    simp only [htail] at h
    injection h with h
    subst h
    obtain ⟨ihLen, ihFrame, ihBnd⟩ := ih lines (i + 1) tail htail
    refine ⟨by simp [ihLen], ?_, ?_⟩
    · simp only [List.map_cons]
      refine congrArg₂ (· :: ·) ?_ ihFrame
      rw [frameOfD, pyGet_ok ht, pyGet_ok hc, pyGet_ok hd]
      rfl
    · intro sj hsj
      rcases List.mem_cons.mp hsj with rfl | hsj
      · exact parse_entry_bounds lines (i + 1)
      · exact ihBnd sj hsj

theorem parse_ai_scores_sound (jobs : List JobDict) (t : String) (l : List ScoredJob)
    (h : parse_ai_scores jobs t = Except.ok l) :
    l.length = jobs.length ∧
    jobs.map frameOfD = l.map (fun s => some (frameOfS s)) ∧
    (∀ sj ∈ l, 0 ≤ sj.fit_score ∧ sj.fit_score ≤ 100) := by
  rw [parse_ai_scores] at h
  split at h
  · cases h
    rename_i heq
    exact parse_rows_sound jobs _ 0 l heq
  · obtain ⟨hLen, hFrame, hIdx, hBnd⟩ := gma_sound jobs 0 l h
    exact ⟨hLen, hFrame, fun sj hsj => ⟨by linarith [(hBnd sj hsj).1],
      by linarith [(hBnd sj hsj).2]⟩⟩

/-! ## Helper lemmas: batch scoring -/

theorem score_job_batch_sound (o : Option BatchOutcome) (batch : List JobDict)
    (l : List ScoredJob) (h : score_job_batch o batch = Except.ok l) :
    l.length = batch.length ∧
    batch.map frameOfD = l.map (fun s => some (frameOfS s)) ∧
    (∀ sj ∈ l, 0 ≤ sj.fit_score ∧ sj.fit_score ≤ 100) := by
  have mockCase : ∀ l', generate_mock_scores batch = Except.ok l' →
      l'.length = batch.length ∧
      batch.map frameOfD = l'.map (fun s => some (frameOfS s)) ∧
      (∀ sj ∈ l', 0 ≤ sj.fit_score ∧ sj.fit_score ≤ 100) := by
    intro l' h'
    obtain ⟨hLen, hFrame, _, hBnd⟩ := gma_sound batch 0 l' h'
    exact ⟨hLen, hFrame, fun sj hsj => ⟨by linarith [(hBnd sj hsj).1],
      by linarith [(hBnd sj hsj).2]⟩⟩
  rw [score_job_batch] at h
  cases hin : score_job_batch_inner o batch with
  | error e => simp only [hin] at h; exact mockCase l h
  | ok l' =>
    simp only [hin] at h
    injection h with h
    subst h
    cases o with
    | none => exact mockCase l' (by simpa [score_job_batch_inner] using hin)
    | some b =>
      cases b with
      | response t =>
        exact parse_ai_scores_sound _ _ _ (by simpa [score_job_batch_inner] using hin)
      | failure => exact mockCase l' (by simpa [score_job_batch_inner] using hin)

theorem score_batches_sound (pc : Bool) (r : Nat → BatchOutcome) :
    ∀ (fuel : Nat) (jobs : List JobDict) (b : Nat) (l : List ScoredJob),
      jobs.length ≤ fuel → score_batches pc r fuel b jobs = Except.ok l →
      l.length = jobs.length ∧
      jobs.map frameOfD = l.map (fun s => some (frameOfS s)) ∧
      (∀ sj ∈ l, 0 ≤ sj.fit_score ∧ sj.fit_score ≤ 100) := by
  intro fuel
  induction fuel with
  | zero =>
    intro jobs b l hle h
    cases jobs with
    | nil =>
      rw [score_batches] at h
      cases h
      exact ⟨rfl, rfl, fun sj hsj => absurd hsj (List.not_mem_nil _)⟩
    | cons j rest => simp at hle
  | succ fuel ih =>
    intro jobs b l hle h
    cases jobs with
    | nil =>
      rw [score_batches] at h
      cases h
      exact ⟨rfl, rfl, fun sj hsj => absurd hsj (List.not_mem_nil _)⟩
    | cons j rest =>
      rw [score_batches] at h
      cases hh : score_job_batch (if pc then some (r b) else none) ((j :: rest).take 5) with
      | error e => simp only [hh] at h; exact Except.noConfusion h
      | ok head =>
      simp only [hh] at h
      cases htl : score_batches pc r fuel (b + 1) ((j :: rest).drop 5) with
      | error e => simp only [htl] at h; exact Except.noConfusion h
      | ok tail =>
      simp only [htl] at h
      injection h with h
      subst h
      obtain ⟨hLen1, hFrame1, hBnd1⟩ := score_job_batch_sound _ _ _ hh
      obtain ⟨hLen2, hFrame2, hBnd2⟩ := ih ((j :: rest).drop 5) (b + 1) tail
        (by simp only [List.length_drop, List.length_cons] at hle ⊢; omega) htl
      refine ⟨?_, ?_, ?_⟩
      · rw [List.length_append, hLen1, hLen2]
        simp only [List.length_take, List.length_drop, List.length_cons]
        omega
      · conv_lhs => rw [← List.take_append_drop 5 (j :: rest)]
        rw [List.map_append, List.map_append, hFrame1, hFrame2]
      · intro sj hsj
        rcases List.mem_append.mp hsj with hsj | hsj
        · exact hBnd1 sj hsj
        · exact hBnd2 sj hsj

theorem score_jobs_sound (pc : Bool) (r : Nat → BatchOutcome) (jobs : List JobDict)
    (l : List ScoredJob) (h : score_jobs pc r jobs = Except.ok l) :
    l.length = jobs.length ∧
    jobs.map frameOfD = l.map (fun s => some (frameOfS s)) ∧
    (∀ sj ∈ l, 0 ≤ sj.fit_score ∧ sj.fit_score ≤ 100) := by
  rw [score_jobs] at h
  cases hb : score_batches pc r jobs.length 0 jobs with
  | ok l' =>
    simp only [hb] at h
    injection h with h
    subst h
    exact score_batches_sound pc r _ jobs 0 _ le_rfl hb
  | error e =>
    simp only [hb] at h
    obtain ⟨hLen, hFrame, _, hBnd⟩ := gma_sound jobs 0 l h
    exact ⟨hLen, hFrame, fun sj hsj => ⟨by linarith [(hBnd sj hsj).1],
      by linarith [(hBnd sj hsj).2]⟩⟩

theorem score_batches_mock (r : Nat → BatchOutcome) :
    ∀ (fuel : Nat) (jobs : List JobDict) (b : Nat),
      jobs.length ≤ fuel → (∀ j ∈ jobs, hasRequiredKeys j = true) →
      ∃ l, score_batches false r fuel b jobs = Except.ok l ∧
        l.length = jobs.length ∧
        ∀ k, k < jobs.length → (l.getD k defaultScored).fit_score = mockScoreAt (k % 5) := by
  intro fuel
  induction fuel with
  | zero =>
    intro jobs b hle hv
    cases jobs with
    | nil => exact ⟨[], rfl, rfl, fun k hk => absurd hk (by simp)⟩
    | cons j rest => simp at hle
  | succ fuel ih =>
    intro jobs b hle hv
    cases jobs with
    | nil => exact ⟨[], rfl, rfl, fun k hk => absurd hk (by simp)⟩
    | cons j rest =>
      obtain ⟨head, hhead⟩ := gma_complete ((j :: rest).take 5)
        (fun x hx => hv x ((List.take_sublist 5 _).subset hx)) 0
      have hsjb : score_job_batch none ((j :: rest).take 5) = Except.ok head := by
        rw [score_job_batch]
        simp only [score_job_batch_inner, generate_mock_scores, hhead]
      obtain ⟨hLenH, _, hIdxH, _⟩ := gma_sound _ 0 head hhead
      obtain ⟨tail, htail, hLenT, hIdxT⟩ := ih ((j :: rest).drop 5) (b + 1)
        (by simp only [List.length_drop, List.length_cons] at hle ⊢; omega)
        (fun x hx => hv x ((List.drop_sublist 5 _).subset hx))
      have hsjb' : score_job_batch none (j :: List.take 4 rest) = Except.ok head := by
        simpa using hsjb
      have htail' : score_batches false r fuel (b + 1) (List.drop 4 rest) = Except.ok tail := by
        simpa using htail
      have hle5 : head.length ≤ 5 := by
        rw [hLenH, List.length_take]; exact min_le_left _ _
      have hchoice : head.length = 5 ∨ head.length = (j :: rest).length := by
        rw [hLenH, List.length_take]; exact min_choice _ _
      have hlen : (List.drop 5 (j :: rest)).length = (j :: rest).length - 5 :=
        List.length_drop _ _
      refine ⟨head ++ tail, ?_, ?_, ?_⟩
      · simp [score_batches, hsjb', htail']
      · rw [List.length_append, hLenH, hLenT]
        simp only [List.length_take, List.length_drop, List.length_cons]
        omega
      · intro k hk
        by_cases hkh : k < head.length
        · rw [List.getD_append _ _ _ _ hkh]
          rw [hIdxH k (by rw [← hLenH]; exact hkh)]
          exact congrArg mockScoreAt (by omega)
        · push_neg at hkh
          rw [List.getD_append_right _ _ _ _ hkh]
          rcases hchoice with h5 | h5
          · rw [hIdxT (k - head.length) (by omega)]
            exact congrArg mockScoreAt (by omega)
          · exact absurd hk (by omega)

/-! ## Helper lemmas: the stable descending sort -/

theorem mem_orderedInsertDesc (x z : ScoredJob) :
    ∀ l, z ∈ orderedInsertDesc x l ↔ z = x ∨ z ∈ l := by
  intro l
  induction l with
  | nil => simp [orderedInsertDesc]
  | cons y ys ih =>
    rw [orderedInsertDesc]
    split
    · simp [List.mem_cons]
    · simp only [List.mem_cons, ih]
      tauto

theorem pairwise_orderedInsertDesc (x : ScoredJob) :
    ∀ l, List.Pairwise (fun a b => b.fit_score ≤ a.fit_score) l →
      List.Pairwise (fun a b => b.fit_score ≤ a.fit_score) (orderedInsertDesc x l) := by
  intro l
  induction l with
  | nil => intro _; exact List.pairwise_singleton _ _
  | cons y ys ih =>
    intro hp
    obtain ⟨hy, hys⟩ := List.pairwise_cons.mp hp
    rw [orderedInsertDesc]
    split
    · rename_i hyx
      refine List.pairwise_cons.mpr ⟨?_, hp⟩
      intro z hz
      rcases List.mem_cons.mp hz with rfl | hz
      · exact hyx
      · exact le_trans (hy z hz) hyx
    · rename_i hyx
      push_neg at hyx
      refine List.pairwise_cons.mpr ⟨?_, ih hys⟩
      intro z hz
      rcases (mem_orderedInsertDesc x z ys).mp hz with rfl | hz
      · exact le_of_lt hyx
      · exact hy z hz

theorem sorted_sortByFitDesc :
    ∀ l, List.Pairwise (fun a b => b.fit_score ≤ a.fit_score) (sortByFitDesc l) := by
  intro l
  induction l with
  | nil => exact List.Pairwise.nil
  | cons x xs ih => exact pairwise_orderedInsertDesc x _ ih

theorem filter_orderedInsertDesc (s : Int) (x : ScoredJob) :
    ∀ l, (orderedInsertDesc x l).filter (fun y => y.fit_score == s)
      = if x.fit_score == s then x :: l.filter (fun y => y.fit_score == s)
        else l.filter (fun y => y.fit_score == s) := by
  intro l
  induction l with
  | nil =>
    by_cases h : x.fit_score = s
    · simp [orderedInsertDesc, List.filter, h]
    · have hb : (x.fit_score == s) = false := beq_eq_false_iff_ne.mpr h
      simp [orderedInsertDesc, List.filter, hb, h]
  | cons y ys ih =>
    rw [orderedInsertDesc]
    split
    · rw [List.filter]
      split <;> simp_all [List.filter_cons]
    · rename_i hyx
      push_neg at hyx
      rw [List.filter_cons, List.filter_cons, ih]
      by_cases hx : x.fit_score == s
      · have hy : (y.fit_score == s) = false := by
          have hxs : x.fit_score = s := by simpa using hx
          simp only [beq_eq_false_iff_ne, ne_eq]
          omega
        simp [hx, hy]
      · simp only [Bool.not_eq_true] at hx
        simp [hx]

theorem filter_sortByFitDesc (s : Int) :
    ∀ l, (sortByFitDesc l).filter (fun y => y.fit_score == s)
      = l.filter (fun y => y.fit_score == s) := by
  intro l
  induction l with
  | nil => rfl
  | cons x xs ih =>
    rw [sortByFitDesc, filter_orderedInsertDesc, List.filter_cons]
    by_cases hx : x.fit_score == s
    · simp [hx, ih]
    · simp only [Bool.not_eq_true] at hx
      simp [hx, ih]

/-! ## Helper lemmas: mock job list -/

theorem length_get_mock_jobs (keyword loc : String) (lim : Int)
    (cP tP lP : Nat → Nat) :
    (get_mock_jobs keyword loc lim cP tP lP).length = (min lim 15).toNat := by
  rw [get_mock_jobs, List.length_map, List.length_range]

theorem source_get_mock_jobs (keyword loc : String) (lim : Int)
    (cP tP lP : Nat → Nat) :
    ∀ j ∈ get_mock_jobs keyword loc lim cP tP lP, j.source = "mock" := by
  intro j hj
  rw [get_mock_jobs] at hj
  obtain ⟨i, _, rfl⟩ := List.mem_map.mp hj
  rfl

theorem scrape_jobsCore_empty (hasKey : Bool) (lim : Int) :
    scrape_jobsCore hasKey [] [] lim = [] := by
  rw [scrape_jobsCore]
  have h1 : all_jobs hasKey [] [] lim = [] := by
    rw [all_jobs]
    cases hasKey <;> simp
  rw [h1]
  exact pySlice_nil lim

/-! ## Claim theorems -/

/-- C1 (amended): when the JSearch helper yields no records and the Indeed
helper fails or finds no job cards, both return the empty list (they catch
their own exceptions), and `scrape_jobs` then returns the empty list — not the
mock list.  The synthetic list of `min(limit,15)` jobs, each tagged
`"mock"`, is produced only when an exception reaches `scrape_jobs`'s own
`except` handler (`raised = true`). -/
theorem scrape_jobs_both_sources_graceful (hasKey : Bool) (keyword loc : String)
    (lim : Int) (cP tP lP : Nat → Nat) :
    scrape_jobs false hasKey [] [] keyword loc lim cP tP lP = [] ∧
    (scrape_jobs true hasKey [] [] keyword loc lim cP tP lP).length = (min lim 15).toNat ∧
    ∀ j ∈ scrape_jobs true hasKey [] [] keyword loc lim cP tP lP, j.source = "mock" := by
  refine ⟨?_, ?_, ?_⟩
  · exact scrape_jobsCore_empty hasKey lim
  · exact length_get_mock_jobs keyword loc lim cP tP lP
  · exact source_get_mock_jobs keyword loc lim cP tP lP

set_option maxRecDepth 8000 in
theorem scrape_jobs_both_sources_graceful_witness :
    scrape_jobs false false [] [] "engineer" "Remote" 5 zeroPick zeroPick zeroPick = [] ∧
    ((scrape_jobs true false [] [] "engineer" "Remote" 5 zeroPick zeroPick zeroPick).length
      = (min (5 : Int) 15).toNat) ∧
    ((scrape_jobs true false [] [] "engineer" "Remote" 5 zeroPick zeroPick zeroPick).getD 0
      defaultJob).source = "mock" :=
  ⟨(scrape_jobs_both_sources_graceful false "engineer" "Remote" 5 zeroPick zeroPick zeroPick).1,
   (scrape_jobs_both_sources_graceful false "engineer" "Remote" 5 zeroPick zeroPick zeroPick).2.1,
   (scrape_jobs_both_sources_graceful false "engineer" "Remote" 5 zeroPick zeroPick zeroPick).2.2
     _ (by decide)⟩

/-- C1 counterexample: with no API key configured and the Indeed scrape finding
no job cards, both helpers return `[]` after catching their own errors, so no
exception reaches `scrape_jobs`; `scrape_jobs("engineer", "", 1)` then returns
the empty list (0 records), while the claim requires a mock list of
`min(1,15) = 1` record tagged `"mock"`. -/
theorem scrape_jobs_empty_not_mock_cex :
    (scrape_jobs false false [] [] "engineer" "" 1 zeroPick zeroPick zeroPick).length = 0 ∧
    (min (1 : Int) 15).toNat = 1 ∧ (0 : Nat) ≠ 1 :=
  ⟨rfl, by decide, by decide⟩

/-- C2: the claim (scoring never raises) is the spec's and the code's declared
fail-open intent, but `_generate_mock_scores` accesses `job['title']`
unguarded, so for a job dictionary without a `'title'` key —
`score_jobs(resume_url, jobs=[{}])` — every fallback path re-raises `KeyError`
and `AIMatcher.score_jobs` propagates it to its caller (the endpoint turns it
into an HTTP 500). -/
theorem score_jobs_missing_title_raises :
    score_jobs false noResponses [emptyJD] = Except.error "KeyError: title" ∧
    score_jobs true noResponses [emptyJD] = Except.error "KeyError: title" ∧
    score_jobs_endpoint false noResponses "https://x/r.pdf" [emptyJD]
      = Except.error "KeyError: title" :=
  ⟨rfl, rfl, rfl⟩

/-- C3 (amended): on the non-fallback path, no two records returned by
`scrape_jobs` share the lowercase-normalized `(title, company)` key,
deduplication keeps the first occurrence of each key and preserves the
original order; the mock-fallback output bypasses `_remove_duplicates` and may
contain duplicate pairs. -/
theorem scrape_jobs_dedup_invariant (hasKey : Bool) (js ind : List Job)
    (keyword loc : String) (lim : Int) (cP tP lP : Nat → Nat) :
    List.Pairwise (fun a b => dedupKey a ≠ dedupKey b)
      (scrape_jobs false hasKey js ind keyword loc lim cP tP lP) ∧
    List.Sublist (scrape_jobs false hasKey js ind keyword loc lim cP tP lP)
      (all_jobs hasKey js ind lim) ∧
    ∀ (j : Job) (rest : List Job),
      remove_duplicates (j :: rest)
        = j :: remove_duplicates (rest.filter (fun x => dedupKey x != dedupKey j)) := by
  refine ⟨?_, ?_, fun j rest => remove_duplicates_cons_eq j rest⟩
  · exact List.Pairwise.sublist (pySlice_sublist lim _)
      ((remove_duplicates_aux_keys (all_jobs hasKey js ind lim) []).2)
  · exact (pySlice_sublist lim _).trans
      (remove_duplicates_aux_sublist (all_jobs hasKey js ind lim) [])

/-- C3 counterexample: the mock fallback is not deduplicated — with choice
functions that repeat the same company and seniority draw (one possible run of
`random.choice`), `scrape_jobs` on the exception path returns two records with
the same lowercase `(title, company)` key. -/
theorem scrape_jobs_mock_duplicates_cex :
    (scrape_jobs true false [] [] "dev" "" 2 zeroPick zeroPick zeroPick).length = 2 ∧
    dedupKey ((scrape_jobs true false [] [] "dev" "" 2 zeroPick zeroPick zeroPick).getD 0
        defaultJob)
      = dedupKey ((scrape_jobs true false [] [] "dev" "" 2 zeroPick zeroPick zeroPick).getD 1
        defaultJob) :=
  ⟨rfl, rfl⟩

/-- C4: every `ScoredJob` produced by `AIMatcher.score_jobs` — through
AI-response parsing (with its clamp and parse-failure default) or the mock
fallback — has an integer `fit_score` with `0 ≤ fit_score ≤ 100`. -/
theorem score_jobs_fit_score_range (pc : Bool) (r : Nat → BatchOutcome)
    (jobs : List JobDict) (l : List ScoredJob)
    (h : score_jobs pc r jobs = Except.ok l) :
    ∀ sj ∈ l, 0 ≤ sj.fit_score ∧ sj.fit_score ≤ 100 :=
  (score_jobs_sound pc r jobs l h).2.2

theorem score_jobs_fit_score_range_witness :
    0 ≤ sjA85.fit_score ∧ sjA85.fit_score ≤ 100 :=
  score_jobs_fit_score_range false noResponses [jdA] [sjA85] rfl sjA85 (by decide)

/-- C5: the scored list returned by the `score_jobs` endpoint is the stable
descending sort of the scorer's output: it is sorted non-increasing by
`fit_score`, and for every score value the records carrying it appear in their
original relative order (the filter at each score is unchanged). -/
theorem score_endpoint_sorted_stable (pc : Bool) (r : Nat → BatchOutcome)
    (url : String) (jobs : List JobDict) (m : List ScoredJob)
    (h : score_jobs pc r jobs = Except.ok m) (hj : jobs ≠ []) (hu : url ≠ "") :
    score_jobs_endpoint pc r url jobs = Except.ok (sortByFitDesc m) ∧
    List.Pairwise (fun a b => b.fit_score ≤ a.fit_score) (sortByFitDesc m) ∧
    ∀ s : Int, (sortByFitDesc m).filter (fun y => y.fit_score == s)
      = m.filter (fun y => y.fit_score == s) := by
  refine ⟨?_, sorted_sortByFitDesc m, fun s => filter_sortByFitDesc s m⟩
  have hje : jobs.isEmpty = false := by
    cases jobs with
    | nil => exact absurd rfl hj
    | cons a as => rfl
  rw [score_jobs_endpoint, hje]
  rw [if_neg Bool.false_ne_true, if_neg hu]
  simp only [h]

theorem score_endpoint_sorted_stable_witness :
    score_jobs_endpoint false noResponses "https://x/r.pdf" [jdA]
      = Except.ok (sortByFitDesc [sjA85]) ∧
    List.Pairwise (fun a b => b.fit_score ≤ a.fit_score) (sortByFitDesc [sjA85]) ∧
    (sortByFitDesc [sjA85]).filter (fun y => y.fit_score == (85 : Int))
      = [sjA85].filter (fun y => y.fit_score == (85 : Int)) :=
  ⟨(score_endpoint_sorted_stable false noResponses "https://x/r.pdf" [jdA] [sjA85]
      rfl (by decide) (by decide)).1,
   (score_endpoint_sorted_stable false noResponses "https://x/r.pdf" [jdA] [sjA85]
      rfl (by decide) (by decide)).2.1,
   (score_endpoint_sorted_stable false noResponses "https://x/r.pdf" [jdA] [sjA85]
      rfl (by decide) (by decide)).2.2 85⟩

/-- C6 (amended): for 1-based job index N, `_parse_ai_scores` finds the first
line containing `"Job {N}:"` and splits it on every `" - "`; the score is the
integer between the first and second `":"` of the first segment and the
explanation is the SECOND segment — the text between the first and the second
`" - "`, not the whole remaining text.  The well-formed line
`"Job 2: 77 - Strong skills match"` yields `(77, "Strong skills match")`; a
malformed or missing line yields `(50, "AI analysis completed")`; the score is
clamped to `[0,100]`. -/
theorem parse_ai_scores_spec :
    parse_ai_scores_core [jdA, jdB] "Job 1: 90 - Good\nJob 2: 77 - Strong skills match"
      = Except.ok
        [{ title := "Backend Engineer", company := "Acme", description := "Build APIs",
           location := some "Remote", source_url := some "https://a",
           fit_score := 90, score_explanation := "Good" },
         { title := "Data Engineer", company := "Globex", description := "Build pipelines",
           location := some "NYC", source_url := some "https://b",
           fit_score := 77, score_explanation := "Strong skills match" }] ∧
    (∀ (lines : List String) (n : Nat),
      (∀ line ∈ lines, strContains line ("Job " ++ toString n ++ ":") = false) →
      parse_entry lines n = (50, default_explanation)) ∧
    (∀ (lines : List String) (n : Nat),
      0 ≤ (parse_entry lines n).1 ∧ (parse_entry lines n).1 ≤ 100) ∧
    parse_entry ["Job 3: banana - nope"] 3 = (50, default_explanation) ∧
    parse_entry ["Job 1: 150 - above range"] 1 = (100, "above range") := by
  refine ⟨rfl, ?_, parse_entry_bounds, by decide, by decide⟩
  intro lines n hnone
  have hf : lines.find? (fun line => strContains line ("Job " ++ toString n ++ ":"))
      = none :=
    List.find?_eq_none.mpr (fun x hx => by rw [hnone x hx]; exact Bool.false_ne_true)
  rw [parse_entry, parse_entry_raw, hf]
  norm_num

theorem parse_ai_scores_spec_witness :
    parse_entry ["no matching line"] 7 = (50, default_explanation) :=
  parse_ai_scores_spec.2.1 ["no matching line"] 7 (by decide)

/-- C6 counterexample: on the line `"Job 1: 80 - great - really"` the code
sets the explanation to `"great"` — the segment between the first and second
`" - "` — not to the remaining text `"great - really"` that the claim's
"splits on the first separator" description implies. -/
theorem parse_explanation_second_segment_cex :
    parse_ai_scores_core [jdA] "Job 1: 80 - great - really"
      = Except.ok
        [{ title := "Backend Engineer", company := "Acme", description := "Build APIs",
           location := some "Remote", source_url := some "https://a",
           fit_score := 80, score_explanation := "great" }] ∧
    "great" ≠ "great - really" :=
  ⟨rfl, by decide⟩

/-- C7 (amended): with no provider configured, mock scoring is applied to each
batch of 5 jobs with the enumeration index reset per batch, so the job at
global 0-based position `i` receives
`clamp(40, 95, (85 - 3*(i % 5)) + ((i % 5) mod 3)*5)`; the claim's global
formula holds only within the first batch (lists of at most 5 jobs). -/
theorem mock_scores_per_batch (r : Nat → BatchOutcome) (jobs : List JobDict)
    (hv : ∀ j ∈ jobs, hasRequiredKeys j = true) :
    ∃ l, score_jobs false r jobs = Except.ok l ∧ l.length = jobs.length ∧
      ∀ k, k < jobs.length → (l.getD k defaultScored).fit_score = mockScoreAt (k % 5) := by
  obtain ⟨l, hl, hlen, hidx⟩ := score_batches_mock r jobs.length jobs 0 le_rfl hv
  refine ⟨l, ?_, hlen, hidx⟩
  rw [score_jobs]
  simp only [hl]

theorem mock_scores_per_batch_witness :
    ∃ l, score_jobs false noResponses jobs6 = Except.ok l ∧ l.length = jobs6.length ∧
      ∀ k, k < jobs6.length → (l.getD k defaultScored).fit_score = mockScoreAt (k % 5) :=
  mock_scores_per_batch noResponses jobs6 (by decide)

/-- C7 counterexample: on a six-job list with no provider configured, the job
at 0-based position 5 (the first job of the second batch) receives mock score
85, whereas the claim's formula `clamp(40,95,(85-3*5)+((5%3)*5))` demands
80. -/
theorem mock_scores_sixth_job_cex :
    (scoresOfResult (score_jobs false noResponses jobs6)).getD 5 0 = 85 ∧
    mockScoreAt 5 = 80 ∧ (85 : Int) ≠ 80 :=
  ⟨by decide, by decide, by decide⟩

/-- C8 (amended): with no provider configured, `score_jobs` on `[job_a, job_b]`
assigns fit scores 85 to `job_a` and 87 (not 82) to `job_b` — the mock formula
at index 1 is `clamp(40,95,(85-3)+5) = 87` — and the endpoint's descending
sort therefore returns them in the order 87, 85. -/
theorem score_two_jobs_mock (r : Nat → BatchOutcome) (ja jb : JobDict)
    (ha : hasRequiredKeys ja = true) (hb : hasRequiredKeys jb = true) :
    ∃ l, score_jobs false r [ja, jb] = Except.ok l ∧
      l.map (fun s => s.fit_score) = [85, 87] ∧
      score_jobs_endpoint false r "https://x/r.pdf" [ja, jb]
        = Except.ok (sortByFitDesc l) ∧
      (sortByFitDesc l).map (fun s => s.fit_score) = [87, 85] := by
  cases ja with
  | mk t₁ c₁ d₁ lo₁ su₁ =>
  cases jb with
  | mk t₂ c₂ d₂ lo₂ su₂ =>
  rw [hasRequiredKeys, Bool.and_eq_true, Bool.and_eq_true] at ha hb
  obtain ⟨⟨ha1, ha2⟩, ha3⟩ := ha
  obtain ⟨⟨hb1, hb2⟩, hb3⟩ := hb
  obtain ⟨ta, rfl⟩ := Option.isSome_iff_exists.mp ha1
  obtain ⟨ca, rfl⟩ := Option.isSome_iff_exists.mp ha2
  obtain ⟨da, rfl⟩ := Option.isSome_iff_exists.mp ha3
  obtain ⟨tb, rfl⟩ := Option.isSome_iff_exists.mp hb1
  obtain ⟨cb, rfl⟩ := Option.isSome_iff_exists.mp hb2
  obtain ⟨db, rfl⟩ := Option.isSome_iff_exists.mp hb3
  have h0 : mockScoreAt 0 = 85 := by decide
  have h1 : mockScoreAt 1 = 87 := by decide
  refine ⟨[{ title := ta, company := ca, description := da, location := lo₁,
             source_url := su₁, fit_score := mockScoreAt 0,
             score_explanation := mock_explanation },
           { title := tb, company := cb, description := db, location := lo₂,
             source_url := su₂, fit_score := mockScoreAt 1,
             score_explanation := mock_explanation }], rfl, ?_, rfl, ?_⟩
  · simp [h0, h1]
  · norm_num [sortByFitDesc, orderedInsertDesc, h0, h1]

theorem score_two_jobs_mock_witness :
    ∃ l, score_jobs false noResponses [jdA, jdB] = Except.ok l ∧
      l.map (fun s => s.fit_score) = [85, 87] ∧
      score_jobs_endpoint false noResponses "https://x/r.pdf" [jdA, jdB]
        = Except.ok (sortByFitDesc l) ∧
      (sortByFitDesc l).map (fun s => s.fit_score) = [87, 85] :=
  score_two_jobs_mock noResponses jdA jdB (by decide) (by decide)

/-- C8 counterexample: for two jobs with no provider configured, the scorer
yields fit scores `[85, 87]` and the endpoint returns them sorted as
`[87, 85]`; the score 82 claimed for the second job occurs nowhere. -/
theorem score_two_jobs_scores_cex :
    scoresOfResult (score_jobs false noResponses [jdA, jdB]) = [85, 87] ∧
    scoresOfResult (score_jobs_endpoint false noResponses "https://x/r.pdf" [jdA, jdB])
      = [87, 85] ∧
    ¬ (82 : Int) ∈ ([87, 85] : List Int) :=
  ⟨by decide, by decide, by decide⟩

/-- C9 (amended): for every request with a non-blank keyword and a
NON-NEGATIVE requested limit, the endpoint caps the limit at 50 and the
returned list has at most `min(limit,50)` records, hence at most `limit` and
at most 50; for a negative requested limit Python's slice semantics apply and
the `len ≤ limit` bound fails. -/
theorem fetch_jobs_limit_cap (raised hasKey : Bool) (js ind : List Job)
    (keyword loc : String) (lim : Int) (cP tP lP : Nat → Nat)
    (hk : pyStrip keyword ≠ "") (hl : 0 ≤ lim) :
    ∃ l, scrape_jobs_endpoint raised hasKey js ind keyword loc lim cP tP lP
        = Except.ok l ∧
      (l.length : Int) ≤ lim ∧ l.length ≤ 50 := by
  have key : ((scrape_jobs raised hasKey js ind (pyStrip keyword) (pyStrip loc)
      (min lim 50) cP tP lP).length : Int) ≤ min lim 50 := by
    cases raised
    · exact pySlice_length_le (by omega) _
    · show ((get_mock_jobs (pyStrip keyword) (pyStrip loc) (min lim 50) cP tP lP).length : Int)
        ≤ min lim 50
      rw [length_get_mock_jobs]
      omega
  rw [scrape_jobs_endpoint, if_neg hk]
  exact ⟨_, rfl, by omega, by omega⟩

theorem fetch_jobs_limit_cap_witness :
    ∃ l, scrape_jobs_endpoint false false [] [] "x" "" 60 zeroPick zeroPick zeroPick
        = Except.ok l ∧
      (l.length : Int) ≤ 60 ∧ l.length ≤ 50 :=
  fetch_jobs_limit_cap false false [] [] "x" "" 60 zeroPick zeroPick zeroPick
    (by decide) (by decide)

/-- C9 counterexample: the GET endpoint performs no validation on `limit`, so
`limit = -1` reaches the core; with both sources empty the endpoint returns
the empty list, and `len(returned) = 0 ≤ -1` is false, refuting the claim for
that request. -/
theorem fetch_jobs_negative_limit_cex :
    scrape_jobs_endpoint false false [] [] "x" "" (-1) zeroPick zeroPick zeroPick
      = Except.ok [] ∧
    ¬ ((([] : List Job).length : Int) ≤ -1) :=
  ⟨rfl, by decide⟩

/-- C10: before the endpoint's final sort, `AIMatcher.score_jobs` produces — on
the AI-response-parsing path and on every mock path — exactly one `ScoredJob`
per input job, in input order, whose `title`, `company`, `description`,
`location` and `source_url` equal those of the corresponding input job; only
`fit_score` and `score_explanation` are added. -/
theorem score_jobs_frame (pc : Bool) (r : Nat → BatchOutcome) (jobs : List JobDict)
    (l : List ScoredJob) (h : score_jobs pc r jobs = Except.ok l) :
    l.length = jobs.length ∧
    jobs.map frameOfD = l.map (fun s => some (frameOfS s)) :=
  ⟨(score_jobs_sound pc r jobs l h).1, (score_jobs_sound pc r jobs l h).2.1⟩

theorem score_jobs_frame_witness :
    ([sjA85] : List ScoredJob).length = ([jdA] : List JobDict).length ∧
    [jdA].map frameOfD = [sjA85].map (fun s => some (frameOfS s)) :=
  score_jobs_frame false noResponses [jdA] [sjA85] rfl

end JobAI

